import Mathlib

/-
Verification of the ColossalAI core: the 2D process-group topology
(src/colossalai/tensor/process_group.py) and the parameter shard/gather
protocol (src/colossalai/zero/shard_param/shard_param.py).

Modelling conventions.
A tensor is embedded as a flat list of its elements (`List Int`) together
with its shape (`List Nat`); `torch.narrow(t, 0, 0, n)` on a flat tensor is
`List.take n`, `torch.cat` is `List.flatten`, and `view(shape)` succeeds iff
the number of elements equals the product of the shape.  Device moves
(`.cuda()`, `.to(device)`) do not change values and are elided.
The ambient distributed runtime (torch.distributed) is an external
collaborator: its queries (is_initialized, get_rank, get_world_size) are
passed as explicit parameters, `new_group` allocates a fresh opaque handle
(embedded as a Nat issued in creation order, so handle identity is Nat
equality), and `all_gather(buffer_list, tensor, group)` fills buffer i with
the tensor contributed by group rank i, requiring every contributed tensor
to have exactly the size of the corresponding (uniformly sized) buffer.
The per-rank contributions of the collective are passed to `gather` as an
explicit list, one entry per group rank.
-/

namespace ColossalAI

/- String constants for backends and for error messages. -/

def ncclBackend : String := "nccl"

def glooBackend : String := "gloo"

def errAllGather : String := "all_gather tensor size mismatch"

def errNarrow : String := "narrow length out of bounds"

def errView : String := "view shape incompatible with numel"

def errAssertDP : String := "AssertionError DP degree should be divisible"

def errAssertTP : String := "AssertionError TP degree should be divisible"

def errAssertProduct : String := "AssertionError world size should equal DP times TP product"

def errTypeError : String := "TypeError degree is None"

def errNotInit : String := "ProcessGroup not initialized"

/-! ## ShardParam (src/colossalai/zero/shard_param/shard_param.py) -/

/-- Product of the dimensions of a shape: the numel of a tensor of that shape. -/
def prodShape (shape : List Nat) : Nat := shape.foldr (fun a b => a * b) 1

/-- State of a `ShardParam` wrapper: the payload is kept flat, the original
shape and numel are recorded at construction (shard_param.py lines 18-30). -/
structure ShardParam where
  payload : List Int
  origin_shape : List Nat
  origin_numel : Nat
  world_size : Nat
  local_rank : Nat
  is_shared : Bool
deriving DecidableEq, Repr

/-- Constructor `ShardParam.__init__`: wraps a whole (unsharded) tensor with
elements `data` and shape `shape`; `origin_numel` is the element count and
the group size / local rank come from the ambient process group. -/
def ShardParam.init (data : List Int) (shape : List Nat) (ws rk : Nat) : ShardParam :=
  { payload := data
    origin_shape := shape
    origin_numel := data.length
    world_size := ws
    local_rank := rk
    is_shared := false }

/-- Modelled from the spec: `get_shard` lives in
colossalai/zero/sharded_model/_zero3_utils.py, which is not under src/.
Spec section 4.3: flatten the payload to length `N`, compute
`chunk = ceil(N / group_world_size)`, conceptually pad the flattened payload
with zeros up to `chunk * group_world_size`, and take the contiguous slice
`[local_index * chunk, (local_index + 1) * chunk)` of the padded sequence. -/
def get_shard (flat : List Int) (rank ws : Nat) : List Int :=
  let n := flat.length
  let chunk := (n + ws - 1) / ws
  let padded := flat ++ List.replicate (chunk * ws - n) 0
  (padded.drop (rank * chunk)).take chunk

/-- Method `ShardParam.shard` (shard_param.py lines 35-42): no-op when
already sharded, otherwise replace the payload by its local shard. -/
def ShardParam.shard (s : ShardParam) : ShardParam :=
  if s.is_shared then s
  else { s with payload := get_shard s.payload s.local_rank s.world_size
                is_shared := true }

/-- Method `ShardParam.gather` (shard_param.py lines 44-62): no-op when not
sharded; otherwise build `world_size` buffers of `payload.numel()` elements,
all_gather the contribution of every group rank into them (`contribs`,
whose entry at `local_rank` is the own payload of this rank), concatenate,
narrow to
the first `origin_numel` elements and view as `origin_shape`.  Failure of
the collective size contract, of `narrow`, or of `view` is an error. -/
def ShardParam.gather (s : ShardParam) (contribs : List (List Int)) :
    Except String ShardParam :=
  if s.is_shared = false then .ok s
  else if contribs.length = s.world_size ∧ ∀ c ∈ contribs, c.length = s.payload.length then
    if s.origin_numel ≤ contribs.flatten.length then
      if prodShape s.origin_shape = s.origin_numel then
        .ok { s with payload := contribs.flatten.take s.origin_numel, is_shared := false }
      else .error errView
    else .error errNarrow
  else .error errAllGather

/-! ## PyTorchProcessGroupDict (src/colossalai/tensor/process_group.py lines 7-29)

The singleton cache maps `(backend, rank tuple)` to a communication-group
handle.  A handle is embedded as the Nat position at which the group was
created, so two handles are the identical object iff the Nats are equal. -/

/-- A group-creation call as issued to the cache: the rank list and the
backend string. -/
abbrev GroupCall := List Nat × String

/-- Association-list lookup on the cache entries, first match wins (dict
lookup; keys in the dict are unique so first match is the match). -/
def findHandle (entries : List ((String × List Nat) × Nat))
    (key : String × List Nat) : Option Nat :=
  match entries with
  | [] => none
  | e :: rest => if e.1 = key then some e.2 else findHandle rest key

/-- The cache state: entries in insertion order plus the next fresh handle
(`torch.distributed.new_group` allocates a fresh handle object). -/
structure PyTorchProcessGroupDict where
  entries : List ((String × List Nat) × Nat)
  next_handle : Nat
deriving DecidableEq, Repr

/-- The freshly constructed singleton `PYTORCHPGDICT_`. -/
def emptyPGDict : PyTorchProcessGroupDict := ⟨[], 0⟩

/-- Method `PyTorchProcessGroupDict.get` (process_group.py lines 13-26):
the key is `(backend, tuple(rank_list))` — the rank list exactly as passed,
converted to a tuple only for hashability, not sorted.  On a miss a new
group is created and stored; on a hit the stored handle is returned. -/
def PyTorchProcessGroupDict.get (d : PyTorchProcessGroupDict)
    (rank_list : List Nat) (backend : String) :
    Nat × PyTorchProcessGroupDict :=
  let pg_key := (backend, rank_list)
  match findHandle d.entries pg_key with
  | some h => (h, d)
  | none => (d.next_handle, ⟨d.entries ++ [(pg_key, d.next_handle)], d.next_handle + 1⟩)

/-- Folding a sequence of group-creation calls through the cache. -/
def applyCalls (d : PyTorchProcessGroupDict) (calls : List GroupCall) :
    PyTorchProcessGroupDict :=
  calls.foldl (fun d c => (d.get c.1 c.2).2) d

/-! ## ProcessGroup (src/colossalai/tensor/process_group.py lines 32-192) -/

/-- Attributes of a fully constructed `ProcessGroup` (the `is_init = True`
case).  `tp_rank_list` / `dp_rank_list` are `Option` because the source
initializes them to Python `None` and only overwrites them when the row
resp. column containing `rank` is found. -/
structure ProcessGroupData where
  rank : Nat
  rank_list : List Nat
  world_size : Nat
  tp_degree : Nat
  dp_degree : Nat
  tp_rank_list : Option (List Nat)
  dp_rank_list : Option (List Nat)
  has_cpu_groups : Bool
deriving DecidableEq, Repr

/-- A constructed `ProcessGroup` object: either the degenerate instance
produced when torch.distributed is not initialized (only `is_init = False`
is set; every other attribute is missing), or a full instance. -/
inductive ProcessGroupObj where
  | uninit
  | obj (s : ProcessGroupData)
deriving DecidableEq, Repr

/-- Python truthiness of an `Optional[int]`: `None` and `0` are falsy. -/
def truthy : Option Nat → Bool
  | none => false
  | some n => n != 0

/-- Insertion of one element into a sorted list (ascending). -/
def insertSorted (x : Nat) : List Nat → List Nat
  | [] => [x]
  | y :: ys => if x ≤ y then x :: y :: ys else y :: insertSorted x ys

/-- `list.sort()`: ascending insertion sort (extensionally the sorted
arrangement; on Nat, stability is irrelevant). -/
def sortNat (l : List Nat) : List Nat := l.foldr insertSorted []

/-- Degree resolution of `ProcessGroup.__init__` (process_group.py lines
67-83), following the branch order of the source and Python truthiness; returns
`(dp_degree, tp_degree)` or the error raised by the failing assert (or the
TypeError from multiplying `None`). -/
def resolveDegrees (ws : Nat) (tp_degree dp_degree : Option Nat) :
    Except String (Nat × Nat) :=
  if dp_degree = none ∧ tp_degree = none then .ok (ws, 1)
  else if truthy dp_degree ∧ ¬ truthy tp_degree then
    let d := dp_degree.getD 0
    if ws % d = 0 then .ok (d, ws / d) else .error errAssertDP
  else if ¬ truthy dp_degree ∧ truthy tp_degree then
    let t := tp_degree.getD 0
    if ws % t = 0 then .ok (ws / t, t) else .error errAssertTP
  else
    match dp_degree, tp_degree with
    | some d, some t => if d * t = ws then .ok (d, t) else .error errAssertProduct
    | _, _ => .error errTypeError

/-- Row `i` of the grid (process_group.py line 89): the tensor-parallel
peer list `[rank_list[i * tp_degree + j] for j in range(tp_degree)]`. -/
def rowList (rl : List Nat) (tpD i : Nat) : List Nat :=
  (List.range tpD).map (fun j => rl.getD (i * tpD + j) 0)

/-- Column `j` of the grid (process_group.py line 95): the data-parallel
peer list `[rank_list[i * tp_degree + j] for i in range(dp_degree)]`. -/
def colList (rl : List Nat) (tpD dpD j : Nat) : List Nat :=
  (List.range dpD).map (fun i => rl.getD (i * tpD + j) 0)

/-- The group-creation calls issued by `__init__` (lines 88-98): all
`dp_degree` rows in row order, then all `tp_degree` columns in column
order, every one under the nccl backend. -/
def initGroupCalls (rl : List Nat) (dpD tpD : Nat) : List GroupCall :=
  (List.range dpD).map (fun i => (rowList rl tpD i, ncclBackend))
    ++ (List.range tpD).map (fun j => (colList rl tpD dpD j, ncclBackend))

/-- The loop that records the row (resp. column) containing `rk`: folds in
index order, the last list containing `rk` wins, `none` when no list does
(mirrors the overwrite in the loops of lines 88-98). -/
def selectContaining (rk : Nat) (lists : List (List Nat)) : Option (List Nat) :=
  lists.foldl (fun acc l => if rk ∈ l then some l else acc) none

/-- The `rank_list` resolved by `__init__` (lines 59-63): all ranks
`0 .. world_size - 1` when `ranks` is not given, else the given list
sorted ascending in place. -/
def resolveRankList (dist_world_size : Nat) (ranks : Option (List Nat)) : List Nat :=
  match ranks with
  | none => List.range dist_world_size
  | some rs => sortNat rs

/-- Constructor `ProcessGroup.__init__` (process_group.py lines 44-101).
Inputs: the ambient runtime state (`dist_initialized`, `dist_rank`,
`dist_world_size`) and the four constructor arguments.  Output: the
constructed object together with the sequence of group-creation calls it
issued to the singleton cache, or the error of a failing assert. -/
def ProcessGroup.construct (dist_initialized : Bool)
    (dist_rank dist_world_size : Nat)
    (rank : Option Nat) (ranks : Option (List Nat))
    (tp_degree dp_degree : Option Nat) :
    Except String (ProcessGroupObj × List GroupCall) :=
  if dist_initialized = false then .ok (.uninit, [])
  else
    let r := rank.getD dist_rank
    let rl := resolveRankList dist_world_size ranks
    let ws := rl.length
    match resolveDegrees ws tp_degree dp_degree with
    | .error m => .error m
    | .ok (dpD, tpD) =>
      let tp_sel := selectContaining r ((List.range dpD).map (rowList rl tpD))
      let dp_sel := selectContaining r ((List.range tpD).map (colList rl tpD dpD))
      .ok (.obj { rank := r
                  rank_list := rl
                  world_size := ws
                  tp_degree := tpD
                  dp_degree := dpD
                  tp_rank_list := tp_sel
                  dp_rank_list := dp_sel
                  has_cpu_groups := false }, initGroupCalls rl dpD tpD)

/-- The group-creation calls of a construction (its cache side effect). -/
def constructCalls (dist_initialized : Bool) (dist_rank dist_world_size : Nat)
    (rank : Option Nat) (ranks : Option (List Nat))
    (tp_degree dp_degree : Option Nat) : Except String (List GroupCall) :=
  (ProcessGroup.construct dist_initialized dist_rank dist_world_size
    rank ranks tp_degree dp_degree).map Prod.snd

/-- The fully constructed state of a construction, when there is one. -/
def constructState (dist_initialized : Bool) (dist_rank dist_world_size : Nat)
    (rank : Option Nat) (ranks : Option (List Nat))
    (tp_degree dp_degree : Option Nat) : Except String ProcessGroupData :=
  match ProcessGroup.construct dist_initialized dist_rank dist_world_size
    rank ranks tp_degree dp_degree with
  | .error m => .error m
  | .ok (.uninit, _) => .error errNotInit
  | .ok (.obj s, _) => .ok s

/-- The resolved `(dp_degree, tp_degree)` of a construction. -/
def constructDegrees (dist_world_size : Nat) (tp_degree dp_degree : Option Nat) :
    Except String (Nat × Nat) :=
  match constructState true 0 dist_world_size none none tp_degree dp_degree with
  | .error m => .error m
  | .ok s => .ok (s.dp_degree, s.tp_degree)

/-! Accessors of `ProcessGroup` (process_group.py lines 145-192).  Called on
the degenerate uninitialized instance, every one of them reads an attribute
that was never set and fails (AttributeError); this failure is `none`.
On a full instance whose `tp_rank_list` / `dp_rank_list` is Python `None`,
the size accessors fail (`len(None)`) and the group accessors fail
(`tuple(None)` inside the cache), also `none`. -/

/-- Accessor `rank` (line 145). -/
def ProcessGroupObj.rank : ProcessGroupObj → Option Nat
  | .uninit => none
  | .obj s => some s.rank

/-- Accessor `ranks_in_group` (line 148). -/
def ProcessGroupObj.ranks_in_group : ProcessGroupObj → Option (List Nat)
  | .uninit => none
  | .obj s => some s.rank_list

/-- Accessor `world_size` (line 151). -/
def ProcessGroupObj.world_size : ProcessGroupObj → Option Nat
  | .uninit => none
  | .obj s => some s.world_size

/-- Accessor `tp_rank_list` (line 154): returns the attribute, which may
itself be Python `None` (inner Option). -/
def ProcessGroupObj.tp_rank_list : ProcessGroupObj → Option (Option (List Nat))
  | .uninit => none
  | .obj s => some s.tp_rank_list

/-- Accessor `dp_rank_list` (line 157). -/
def ProcessGroupObj.dp_rank_list : ProcessGroupObj → Option (Option (List Nat))
  | .uninit => none
  | .obj s => some s.dp_rank_list

/-- Accessor `tp_local_rank` (line 160): `rank % tp_degree`. -/
def ProcessGroupObj.tp_local_rank : ProcessGroupObj → Option Nat
  | .uninit => none
  | .obj s => some (s.rank % s.tp_degree)

/-- Accessor `dp_local_rank` (line 163): `rank // tp_degree`. -/
def ProcessGroupObj.dp_local_rank : ProcessGroupObj → Option Nat
  | .uninit => none
  | .obj s => some (s.rank / s.tp_degree)

/-- Accessor `dp_world_size` (line 166): `len(dp_rank_list)`; fails when
the attribute is missing or Python `None`. -/
def ProcessGroupObj.dp_world_size : ProcessGroupObj → Option Nat
  | .uninit => none
  | .obj s => s.dp_rank_list.map List.length

/-- Accessor `tp_world_size` (line 169): `len(tp_rank_list)`. -/
def ProcessGroupObj.tp_world_size : ProcessGroupObj → Option Nat
  | .uninit => none
  | .obj s => s.tp_rank_list.map List.length

/-- Accessor `dp_process_group` (line 172): the cache key it requests,
`(dp_rank_list, nccl)`; fails when the attribute is missing or `None`. -/
def ProcessGroupObj.dp_process_group : ProcessGroupObj → Option GroupCall
  | .uninit => none
  | .obj s => s.dp_rank_list.map (fun l => (l, ncclBackend))

/-- Accessor `tp_process_group` (line 176). -/
def ProcessGroupObj.tp_process_group : ProcessGroupObj → Option GroupCall
  | .uninit => none
  | .obj s => s.tp_rank_list.map (fun l => (l, ncclBackend))

/-- The group-creation calls issued by `set_cpu_groups` (lines 107-113):
all rows then all columns, under the gloo backend. -/
def cpuGroupCalls (s : ProcessGroupData) : List GroupCall :=
  (List.range s.dp_degree).map (fun i => (rowList s.rank_list s.tp_degree i, glooBackend))
    ++ (List.range s.tp_degree).map
        (fun j => (colList s.rank_list s.tp_degree s.dp_degree j, glooBackend))

/-- Method `set_cpu_groups` (process_group.py lines 103-115): no-op when
`has_cpu_groups` is already true; otherwise issues the gloo group-creation
calls for every row and column, then sets the flag. -/
def ProcessGroupData.set_cpu_groups (s : ProcessGroupData) :
    ProcessGroupData × List GroupCall :=
  if s.has_cpu_groups then (s, [])
  else ({ s with has_cpu_groups := true }, cpuGroupCalls s)

/-- Accessor `cpu_dp_process_group` (lines 180-182): asserts
`has_cpu_groups`, then returns the cached gloo handle for `dp_rank_list`. -/
def ProcessGroupData.cpu_dp_process_group (s : ProcessGroupData)
    (d : PyTorchProcessGroupDict) : Option (Nat × PyTorchProcessGroupDict) :=
  if s.has_cpu_groups then s.dp_rank_list.map (fun l => d.get l glooBackend) else none

/-- Accessor `cpu_tp_process_group` (lines 184-186). -/
def ProcessGroupData.cpu_tp_process_group (s : ProcessGroupData)
    (d : PyTorchProcessGroupDict) : Option (Nat × PyTorchProcessGroupDict) :=
  if s.has_cpu_groups then s.tp_rank_list.map (fun l => d.get l glooBackend) else none

/-! ## Helper lemmas -/

/-- The ceiling division `(n + ws - 1) / ws` times `ws` is at least `n`. -/
theorem le_ceil_mul (n ws : Nat) (h : 0 < ws) : n ≤ (n + ws - 1) / ws * ws := by
  have h1 : (n + ws - 1) / ws * ws + (n + ws - 1) % ws = n + ws - 1 :=
    Nat.div_add_mod' (n + ws - 1) ws
  have h2 := Nat.mod_lt (n + ws - 1) h
  omega

/-- The shard of every rank has exactly `chunk = ceil(N / ws)` elements. -/
theorem get_shard_length (flat : List Int) (rk ws : Nat) (hk : rk < ws) :
    (get_shard flat rk ws).length = (flat.length + ws - 1) / ws := by
  have hws : 0 < ws := by omega
  have hle : flat.length ≤ (flat.length + ws - 1) / ws * ws :=
    le_ceil_mul flat.length ws hws
  have hmul : rk * ((flat.length + ws - 1) / ws) + (flat.length + ws - 1) / ws
      ≤ (flat.length + ws - 1) / ws * ws := by
    have h2 : (rk + 1) * ((flat.length + ws - 1) / ws)
        ≤ ws * ((flat.length + ws - 1) / ws) :=
      Nat.mul_le_mul_right _ (by omega)
    calc rk * ((flat.length + ws - 1) / ws) + (flat.length + ws - 1) / ws
        = (rk + 1) * ((flat.length + ws - 1) / ws) := by ring
      _ ≤ ws * ((flat.length + ws - 1) / ws) := h2
      _ = (flat.length + ws - 1) / ws * ws := by ring
  simp only [get_shard, List.length_take, List.length_drop, List.length_append,
    List.length_replicate]
  omega

/-- Concatenating the `m` consecutive slices of width `c` of a list of
length `m * c` gives back the list. -/
theorem flatten_slices {α : Type} (c : Nat) :
    ∀ (m : Nat) (l : List α), l.length = m * c →
      ((List.range m).map (fun k => (l.drop (k * c)).take c)).flatten = l := by
  intro m
  induction m with
  | zero =>
    intro l hl
    simp only [Nat.zero_mul] at hl
    simp [List.eq_nil_of_length_eq_zero hl]
  | succ m ih =>
    intro l hl
    have hc : c ≤ l.length := by
      rw [hl, Nat.succ_mul]; omega
    rw [List.range_succ_eq_map, List.map_cons, List.map_map, List.flatten_cons]
    have hrest : ((List.range m).map
        ((fun k => (l.drop (k * c)).take c) ∘ Nat.succ)).flatten = l.drop c := by
      have hcongr : (List.range m).map ((fun k => (l.drop (k * c)).take c) ∘ Nat.succ)
          = (List.range m).map (fun k => ((l.drop c).drop (k * c)).take c) := by
        apply List.map_congr_left
        intro a _
        simp only [Function.comp]
        rw [List.drop_drop]
        congr 2
        simp only [Nat.succ_eq_add_one]
        ring
      rw [hcongr]
      apply ih
      rw [List.length_drop, hl, Nat.succ_mul]
      omega
    rw [hrest]
    simp only [Nat.zero_mul, List.drop_zero]
    exact List.take_append_drop c l

/-- Uniformly sized buffers flatten to `count * size` elements. -/
theorem flatten_length_uniform (contribs : List (List Int)) (n : Nat)
    (h : ∀ c ∈ contribs, c.length = n) :
    contribs.flatten.length = contribs.length * n := by
  induction contribs with
  | nil => simp
  | cons c cs ih =>
    simp only [List.flatten_cons, List.length_append, List.length_cons]
    rw [h c (by simp), ih (fun x hx => h x (by simp [hx]))]
    ring

/-- Association-list lookup skips a block it misses. -/
theorem findHandle_append_of_none {xs ys : List ((String × List Nat) × Nat)}
    {k : String × List Nat} (h : findHandle xs k = none) :
    findHandle (xs ++ ys) k = findHandle ys k := by
  induction xs with
  | nil => rfl
  | cons e rest ih =>
    simp only [findHandle, List.cons_append] at h ⊢
    by_cases he : e.1 = k
    · rw [if_pos he] at h
      simp at h
    · rw [if_neg he] at h ⊢
      exact ih h

/-- An in-bounds `getD` is the element at that position. -/
theorem getD_mem (l : List Nat) (p : Nat) (h : p < l.length) : l.getD p 0 ∈ l := by
  rw [List.getD_eq_getElem l 0 h]
  exact List.getElem_mem h

/-- Grid positions are in bounds: `i * tpD + j < len` for `i < dpD`,
`j < tpD`, `tpD * dpD = len`. -/
theorem grid_index_lt (tpD dpD len i j : Nat) (hlen : tpD * dpD = len)
    (hi : i < dpD) (hj : j < tpD) : i * tpD + j < len := by
  have h2 : (i + 1) * tpD ≤ dpD * tpD := Nat.mul_le_mul_right tpD (by omega)
  have h3 : i * tpD + tpD = (i + 1) * tpD := by ring
  have h4 : dpD * tpD = tpD * dpD := by ring
  omega

/-- Row index recovered from a grid position. -/
theorem grid_div (i tpD j : Nat) (hj : j < tpD) : (i * tpD + j) / tpD = i := by
  rw [Nat.mul_comm i tpD, Nat.mul_add_div (by omega : 0 < tpD)]
  simp [Nat.div_eq_of_lt hj]

/-- Column index recovered from a grid position. -/
theorem grid_mod (i tpD j : Nat) (hj : j < tpD) : (i * tpD + j) % tpD = j := by
  rw [Nat.mul_comm i tpD, Nat.mul_add_mod]
  exact Nat.mod_eq_of_lt hj

/-- Membership in a row, elementwise. -/
theorem mem_rowList_iff (rl : List Nat) (tpD i x : Nat) :
    x ∈ rowList rl tpD i ↔ ∃ j, j < tpD ∧ rl.getD (i * tpD + j) 0 = x := by
  simp [rowList]

/-- Membership in a column, elementwise. -/
theorem mem_colList_iff (rl : List Nat) (tpD dpD j x : Nat) :
    x ∈ colList rl tpD dpD j ↔ ∃ i, i < dpD ∧ rl.getD (i * tpD + j) 0 = x := by
  simp [colList]

/-- On a duplicate-free rank list, the element at position `p` lies in row
`i` exactly when `i` is the row index `p / tpD` of `p`. -/
theorem mem_row_iff_div (rl : List Nat) (tpD dpD : Nat) (hnd : rl.Nodup)
    (htp : 0 < tpD) (hlen : tpD * dpD = rl.length)
    (p : Nat) (hp : p < rl.length) (i : Nat) (hi : i < dpD) :
    rl[p] ∈ rowList rl tpD i ↔ i = p / tpD := by
  constructor
  · intro hmem
    obtain ⟨j, hj, hval⟩ := (mem_rowList_iff rl tpD i (rl[p])).mp hmem
    have hq : i * tpD + j < rl.length := grid_index_lt tpD dpD rl.length i j hlen hi hj
    rw [List.getD_eq_getElem rl 0 hq] at hval
    have hidx := (List.Nodup.getElem_inj_iff hnd).mp hval
    rw [← hidx, grid_div i tpD j hj]
  · intro hdiv
    subst hdiv
    apply (mem_rowList_iff rl tpD (p / tpD) (rl[p])).mpr
    refine ⟨p % tpD, Nat.mod_lt p htp, ?_⟩
    have hpq : p / tpD * tpD + p % tpD = p := Nat.div_add_mod' p tpD
    rw [hpq]
    exact List.getD_eq_getElem rl 0 hp

/-- On a duplicate-free rank list, the element at position `p` lies in
column `j` exactly when `j` is the column index `p % tpD` of `p`. -/
theorem mem_col_iff_mod (rl : List Nat) (tpD dpD : Nat) (hnd : rl.Nodup)
    (htp : 0 < tpD) (hlen : tpD * dpD = rl.length)
    (p : Nat) (hp : p < rl.length) (j : Nat) (hj : j < tpD) :
    rl[p] ∈ colList rl tpD dpD j ↔ j = p % tpD := by
  constructor
  · intro hmem
    obtain ⟨i, hi, hval⟩ := (mem_colList_iff rl tpD dpD j (rl[p])).mp hmem
    have hq : i * tpD + j < rl.length := grid_index_lt tpD dpD rl.length i j hlen hi hj
    rw [List.getD_eq_getElem rl 0 hq] at hval
    have hidx := (List.Nodup.getElem_inj_iff hnd).mp hval
    rw [← hidx, grid_mod i tpD j hj]
  · intro hmod
    subst hmod
    have hi : p / tpD < dpD := by
      rw [Nat.div_lt_iff_lt_mul htp, Nat.mul_comm dpD tpD, hlen]
      exact hp
    apply (mem_colList_iff rl tpD dpD (p % tpD) (rl[p])).mpr
    refine ⟨p / tpD, hi, ?_⟩
    have hpq : p / tpD * tpD + p % tpD = p := Nat.div_add_mod' p tpD
    rw [hpq]
    exact List.getD_eq_getElem rl 0 hp

/-- A width-`c` window of in-bounds `getD` reads is a drop-take slice. -/
theorem slice_as_map {α : Type} (d : α) :
    ∀ (c s : Nat) (l : List α), s + c ≤ l.length →
      (List.range c).map (fun j => l.getD (s + j) d) = (l.drop s).take c := by
  intro c
  induction c with
  | zero =>
    intro s l _
    simp
  | succ c ih =>
    intro s l h
    have hs : s < l.length := by omega
    have h1 : (List.range (c + 1)).map (fun j => l.getD (s + j) d)
        = l.getD (s + 0) d :: (List.range c).map (fun j => l.getD (s + (j + 1)) d) := by
      rw [List.range_succ_eq_map, List.map_cons, List.map_map]
      rfl
    rw [h1]
    have h2 : (List.range c).map (fun j => l.getD (s + (j + 1)) d)
        = (List.range c).map (fun j => l.getD (s + 1 + j) d) := by
      apply List.map_congr_left
      intro a _
      congr 1
      omega
    rw [h2, ih (s + 1) l (by omega)]
    rw [List.drop_eq_getElem_cons hs, List.take_succ_cons, Nat.add_zero,
      List.getD_eq_getElem l d hs]

/-- Row `i` of the grid is the slice of positions
`[i * tpD, i * tpD + tpD)` of the rank list. -/
theorem rowList_eq_slice (rl : List Nat) (tpD dpD i : Nat)
    (hlen : tpD * dpD = rl.length) (hi : i < dpD) :
    rowList rl tpD i = (rl.drop (i * tpD)).take tpD := by
  apply slice_as_map
  have h2 : (i + 1) * tpD ≤ dpD * tpD := Nat.mul_le_mul_right tpD (by omega)
  have h3 : i * tpD + tpD = (i + 1) * tpD := by ring
  have h4 : dpD * tpD = tpD * dpD := by ring
  omega

/-- When no candidate list contains the rank, the selection loop leaves the
attribute at its initial `none`. -/
theorem selectContaining_none (rk : Nat) (lists : List (List Nat))
    (h : ∀ l ∈ lists, rk ∉ l) : selectContaining rk lists = none := by
  have haux : ∀ (ls : List (List Nat)) (acc : Option (List Nat)),
      (∀ l ∈ ls, rk ∉ l) →
      ls.foldl (fun acc l => if rk ∈ l then some l else acc) acc = acc := by
    intro ls
    induction ls with
    | nil =>
      intro acc _
      rfl
    | cons l ls ih =>
      intro acc hacc
      simp only [List.foldl_cons]
      rw [if_neg (hacc l (by simp))]
      exact ih acc (fun x hx => hacc x (by simp [hx]))
  exact haux lists none h

/-- When exactly one candidate (at index `i0 < n`) contains the rank, the
selection loop over indices `0 .. n - 1` records that candidate. -/
theorem selectContaining_last (rk : Nat) (f : Nat → List Nat) :
    ∀ (n i0 : Nat), i0 < n → (∀ i, i < n → (rk ∈ f i ↔ i = i0)) →
      selectContaining rk ((List.range n).map f) = some (f i0) := by
  intro n
  induction n with
  | zero =>
    intro i0 h0 _
    omega
  | succ n ih =>
    intro i0 h0 hu
    rw [List.range_succ, List.map_append, List.map_cons, List.map_nil]
    unfold selectContaining
    rw [List.foldl_append]
    simp only [List.foldl_cons, List.foldl_nil]
    by_cases hn : i0 = n
    · rw [if_pos ((hu n (by omega)).mpr (by omega))]
      rw [hn]
    · have hnotin : rk ∉ f n := by
        intro hmem
        exact hn ((hu n (by omega)).mp hmem).symm
      rw [if_neg hnotin]
      exact ih i0 (by omega) (fun i hi => hu i (by omega))

/-- Gather succeeds when the size contract of the collective holds, the narrow
is in bounds and the shape is consistent, producing the truncated
concatenation. -/
theorem gather_ok (s : ShardParam) (contribs : List (List Int))
    (hs : s.is_shared = true)
    (hlen : contribs.length = s.world_size)
    (hunif : ∀ c ∈ contribs, c.length = s.payload.length)
    (hnarrow : s.origin_numel ≤ contribs.flatten.length)
    (hview : prodShape s.origin_shape = s.origin_numel) :
    s.gather contribs
      = .ok { s with payload := contribs.flatten.take s.origin_numel,
                     is_shared := false } := by
  unfold ShardParam.gather
  rw [if_neg (by simp [hs]), if_pos ⟨hlen, hunif⟩, if_pos hnarrow, if_pos hview]

/-! ## Claim theorems -/

/-- Claim C2, counterexample: the `get` of the cache does not sort the rank
list (process_group.py line 16 converts it to a tuple as passed), so two
calls with `[0, 1]` and `[1, 0]` under the same backend create two distinct
groups and return different handles, contradicting the claimed
order-insensitive identity. -/
theorem c2_unsorted_key_counterexample :
    ((emptyPGDict.get [0, 1] ncclBackend).2.get [1, 0] ncclBackend).1
      ≠ (emptyPGDict.get [0, 1] ncclBackend).1 := by decide

/-- Claim C2, amended: `PyTorchProcessGroupDict.get` keys the cache on the
backend together with the rank list exactly as passed (no sorting).  Two
calls with the identical ordered rank list and backend return the identical
handle and leave the cache unchanged on the second call; calls whose keys
differ — rank lists in different orders, or different backends for the same
ranks — create and return distinct handles. -/
theorem c2_cache_key_exact_order (d : PyTorchProcessGroupDict) (l : List Nat)
    (b : String) (l1 l2 : List Nat) (b1 b2 : String)
    (h : (b1, l1) ≠ (b2, l2)) :
    (d.get l b).2.get l b = ((d.get l b).1, (d.get l b).2)
    ∧ ((emptyPGDict.get l1 b1).2.get l2 b2).1 ≠ (emptyPGDict.get l1 b1).1 := by
  constructor
  · cases hf : findHandle d.entries (b, l) with
    | some h0 =>
      simp [PyTorchProcessGroupDict.get, hf]
    | none =>
      simp only [PyTorchProcessGroupDict.get, hf]
      rw [findHandle_append_of_none hf]
      simp [findHandle]
  · simp [PyTorchProcessGroupDict.get, emptyPGDict, findHandle, h]

/-- Claim C2, witness for the amended theorem: a repeated `get` on
`[2, 3]` under nccl returns the identical handle, and a gloo `get` for the
same ranks as an earlier nccl `get` returns a different handle. -/
theorem c2_cache_key_exact_order_witness :
    ((emptyPGDict.get [2, 3] ncclBackend).2.get [2, 3] ncclBackend
      = ((emptyPGDict.get [2, 3] ncclBackend).1, (emptyPGDict.get [2, 3] ncclBackend).2))
    ∧ ((emptyPGDict.get [0, 1] ncclBackend).2.get [0, 1] glooBackend).1
      ≠ (emptyPGDict.get [0, 1] ncclBackend).1 :=
  c2_cache_key_exact_order emptyPGDict [2, 3] ncclBackend [0, 1] [0, 1]
    ncclBackend glooBackend (by decide)

/-- Claim C4: degree resolution of construction.  With no degree given the
resolved degrees are `(dp, tp) = (world_size, 1)`; with exactly one
positive degree given the other is `world_size / given` and construction
fails when the given degree does not divide `world_size`; with both
positive degrees given construction fails unless their product is
`world_size`. -/
theorem c4_degree_resolution (ws d t : Nat) (hd : 0 < d) (ht : 0 < t) :
    constructDegrees ws none none = .ok (ws, 1)
    ∧ (ws % d = 0 → constructDegrees ws none (some d) = .ok (d, ws / d))
    ∧ (ws % d ≠ 0 → ∃ m, constructDegrees ws none (some d) = .error m)
    ∧ (ws % t = 0 → constructDegrees ws (some t) none = .ok (ws / t, t))
    ∧ (ws % t ≠ 0 → ∃ m, constructDegrees ws (some t) none = .error m)
    ∧ (t * d = ws → constructDegrees ws (some t) (some d) = .ok (d, t))
    ∧ (t * d ≠ ws → ∃ m, constructDegrees ws (some t) (some d) = .error m) := by
  have hd0 : d ≠ 0 := by omega
  have ht0 : t ≠ 0 := by omega
  refine ⟨?_, ?_, ?_, ?_, ?_, ?_, ?_⟩
  · simp [constructDegrees, constructState, ProcessGroup.construct, resolveDegrees,
      resolveRankList]
  · intro hdvd
    simp [constructDegrees, constructState, ProcessGroup.construct, resolveDegrees,
      resolveRankList, truthy, hd0, hdvd]
  · intro hdvd
    refine ⟨errAssertDP, ?_⟩
    simp [constructDegrees, constructState, ProcessGroup.construct, resolveDegrees,
      resolveRankList, truthy, hd0, hdvd]
  · intro hdvd
    simp [constructDegrees, constructState, ProcessGroup.construct, resolveDegrees,
      resolveRankList, truthy, ht0, hdvd]
  · intro hdvd
    refine ⟨errAssertTP, ?_⟩
    simp [constructDegrees, constructState, ProcessGroup.construct, resolveDegrees,
      resolveRankList, truthy, ht0, hdvd]
  · intro hprod
    have : d * t = ws := by rw [Nat.mul_comm d t]; exact hprod
    simp [constructDegrees, constructState, ProcessGroup.construct, resolveDegrees,
      resolveRankList, truthy, hd0, ht0, this]
  · intro hprod
    have : ¬ d * t = ws := by rw [Nat.mul_comm d t]; exact hprod
    refine ⟨errAssertProduct, ?_⟩
    simp [constructDegrees, constructState, ProcessGroup.construct, resolveDegrees,
      resolveRankList, truthy, hd0, ht0, this]

/-- Claim C4, witness: at `world_size = 6` with `dp_degree = 2` the
resolved degrees are `(2, 3)`; products and divisibility checks behave as
resolved at `d = 2`, `t = 3`. -/
theorem c4_degree_resolution_witness :
    constructDegrees 6 none none = .ok (6, 1)
    ∧ ((6 : Nat) % 2 = 0 → constructDegrees 6 none (some 2) = .ok (2, 6 / 2))
    ∧ ((6 : Nat) % 2 ≠ 0 → ∃ m, constructDegrees 6 none (some 2) = .error m)
    ∧ ((6 : Nat) % 3 = 0 → constructDegrees 6 (some 3) none = .ok (6 / 3, 3))
    ∧ ((6 : Nat) % 3 ≠ 0 → ∃ m, constructDegrees 6 (some 3) none = .error m)
    ∧ ((3 : Nat) * 2 = 6 → constructDegrees 6 (some 3) (some 2) = .ok (2, 3))
    ∧ ((3 : Nat) * 2 ≠ 6 → ∃ m, constructDegrees 6 (some 3) (some 2) = .error m) :=
  c4_degree_resolution 6 2 3 (by decide) (by decide)

/-- Claim C6: on a whole tensor, `shard` replaces the payload by the
contiguous slice `[rk * chunk, (rk + 1) * chunk)` of the flattened payload
zero-padded to `chunk * ws`, where `chunk = ceil(N / ws)` is written
`(N + ws - 1) / ws`; in particular the sharded payload has exactly `chunk`
elements on every rank `rk < ws`, and the state becomes sharded. -/
theorem c6_shard_slice (data : List Int) (shape : List Nat) (ws rk : Nat)
    (hk : rk < ws) :
    ((ShardParam.init data shape ws rk).shard).payload
      = ((data ++ List.replicate ((data.length + ws - 1) / ws * ws - data.length) 0).drop
          (rk * ((data.length + ws - 1) / ws))).take ((data.length + ws - 1) / ws)
    ∧ ((ShardParam.init data shape ws rk).shard).payload.length
      = (data.length + ws - 1) / ws
    ∧ ((ShardParam.init data shape ws rk).shard).is_shared = true := by
  refine ⟨?_, ?_, ?_⟩
  · simp [ShardParam.init, ShardParam.shard, get_shard]
  · have h : ((ShardParam.init data shape ws rk).shard).payload
        = get_shard data rk ws := by
      simp [ShardParam.init, ShardParam.shard]
    rw [h]
    exact get_shard_length data rk ws hk
  · simp [ShardParam.init, ShardParam.shard]

/-- Claim C6, witness: a 10-element tensor sharded over 4 ranks at rank 3
gives the slice `[9, 12)` of the padded sequence, a 3-element payload. -/
theorem c6_shard_slice_witness :
    ((ShardParam.init [1, 2, 3, 4, 5, 6, 7, 8, 9, 10] [10] 4 3).shard).payload
      = (([1, 2, 3, 4, 5, 6, 7, 8, 9, 10]
            ++ List.replicate ((10 + 4 - 1) / 4 * 4 - 10) (0 : Int)).drop
          (3 * ((10 + 4 - 1) / 4))).take ((10 + 4 - 1) / 4)
    ∧ ((ShardParam.init [1, 2, 3, 4, 5, 6, 7, 8, 9, 10] [10] 4 3).shard).payload.length
      = (10 + 4 - 1) / 4
    ∧ ((ShardParam.init [1, 2, 3, 4, 5, 6, 7, 8, 9, 10] [10] 4 3).shard).is_shared
      = true := by
  have h := c6_shard_slice [1, 2, 3, 4, 5, 6, 7, 8, 9, 10] [10] 4 3 (by decide)
  simpa using h

/-- Claim C1: for every payload of `N >= 1` elements, every group size
`G >= 1` and every local rank `k < G`, when each group rank holds the shard
produced by `shard` on the same whole tensor, `shard` followed by `gather`
restores the original payload bit-for-bit and the original shape — the
result is exactly the whole starting state — for all `N, G` including
`N < G`, divisible and non-divisible cases: the gathered concatenation of
length `chunk * G` is truncated to its prefix of length `N` and reshaped. -/
theorem c1_shard_gather_roundtrip (data : List Int) (shape : List Nat) (G k : Nat)
    (_hn : 1 ≤ data.length) (hG : 1 ≤ G) (hk : k < G)
    (hshape : prodShape shape = data.length) :
    ((ShardParam.init data shape G k).shard).gather
        ((List.range G).map (fun i => ((ShardParam.init data shape G i).shard).payload))
      = .ok (ShardParam.init data shape G k) := by
  have hG0 : 0 < G := hG
  have hsh : ∀ i, ((ShardParam.init data shape G i).shard).payload
      = get_shard data i G := by
    intro i
    simp [ShardParam.init, ShardParam.shard]
  have hcontribs : (List.range G).map
        (fun i => ((ShardParam.init data shape G i).shard).payload)
      = (List.range G).map (fun i => get_shard data i G) :=
    List.map_congr_left (fun i _ => hsh i)
  have hplen : (data ++ List.replicate
        ((data.length + G - 1) / G * G - data.length) (0 : Int)).length
      = (data.length + G - 1) / G * G := by
    simp only [List.length_append, List.length_replicate]
    have := le_ceil_mul data.length G hG0
    omega
  have hflat : ((List.range G).map (fun i => get_shard data i G)).flatten
      = data ++ List.replicate ((data.length + G - 1) / G * G - data.length) (0 : Int) := by
    have hcongr : (List.range G).map (fun i => get_shard data i G)
        = (List.range G).map (fun i =>
            (((data ++ List.replicate
                ((data.length + G - 1) / G * G - data.length) (0 : Int)).drop
              (i * ((data.length + G - 1) / G))).take ((data.length + G - 1) / G))) :=
      List.map_congr_left (fun i _ => rfl)
    rw [hcongr]
    apply flatten_slices
    rw [hplen]
    ring
  have hstate : (ShardParam.init data shape G k).shard
      = { payload := get_shard data k G, origin_shape := shape,
          origin_numel := data.length, world_size := G, local_rank := k,
          is_shared := true } := by
    simp [ShardParam.init, ShardParam.shard]
  rw [hcontribs, hstate]
  rw [gather_ok _ _ rfl (by simp)
    (by
      intro c hc
      obtain ⟨i, hi, rfl⟩ := List.mem_map.mp hc
      rw [get_shard_length data i G (List.mem_range.mp hi),
        get_shard_length data k G hk])
    (by
      rw [hflat, hplen]
      exact le_ceil_mul data.length G hG0)
    hshape]
  rw [hflat]
  simp [ShardParam.init, List.take_left]

/-- Claim C1, witness: a 10-element tensor of shape `[2, 5]` over a group
of 4 ranks (the non-divisible case `10 % 4 != 0`) round-trips at rank 1. -/
theorem c1_shard_gather_roundtrip_witness :
    ((ShardParam.init [1, 2, 3, 4, 5, 6, 7, 8, 9, 10] [2, 5] 4 1).shard).gather
        ((List.range 4).map
          (fun i => ((ShardParam.init [1, 2, 3, 4, 5, 6, 7, 8, 9, 10] [2, 5] 4 i).shard).payload))
      = .ok (ShardParam.init [1, 2, 3, 4, 5, 6, 7, 8, 9, 10] [2, 5] 4 1) :=
  c1_shard_gather_roundtrip [1, 2, 3, 4, 5, 6, 7, 8, 9, 10] [2, 5] 4 1
    (by decide) (by decide) (by decide) (by decide)

/-- Claim C8, counterexample: gather on a sharded tensor
(`origin_numel = 7`, group size 3, local shard `[1, 2, 3]` of the
contract chunk size `3 = ceil(7 / 3)`) fails on contributions of lengths
`3, 2, 4` — the per-buffer size contract of the collective is violated — even
though the collected length `9` equals `chunk * group_world_size = 3 * 3`
and the truncation to `origin_numel = 7` is in bounds; so gather raising is
not equivalent to the claimed collected-length condition. -/
theorem c8_gather_iff_counterexample :
    (∃ m, ShardParam.gather (ShardParam.mk [1, 2, 3] [7] 7 3 0 true)
        [[1, 2, 3], [4, 5], [6, 7, 8, 9]] = .error m)
    ∧ ([[1, 2, 3], [4, 5], [6, 7, 8, 9]] : List (List Int)).flatten.length
        = (ShardParam.mk [1, 2, 3] [7] 7 3 0 true).payload.length
          * (ShardParam.mk [1, 2, 3] [7] 7 3 0 true).world_size
    ∧ (ShardParam.mk [1, 2, 3] [7] 7 3 0 true).origin_numel
        ≤ (ShardParam.mk [1, 2, 3] [7] 7 3 0 true).payload.length
          * (ShardParam.mk [1, 2, 3] [7] 7 3 0 true).world_size :=
  ⟨⟨errAllGather, rfl⟩, rfl, by decide⟩

/-- Claim C8, amended: on a sharded tensor with consistent recorded shape,
`gather` fails if and only if the collective size contract is violated —
the number of contributions differs from `group_world_size` or some
contribution has a length differing from the local shard length — or the
truncation to `original_numel` is out of bounds
(`origin_numel > chunk * group_world_size` with `chunk` the local shard
length); a collected length equal to `chunk * group_world_size` made of
non-uniform contributions still fails. -/
theorem c8_gather_failure_characterization (s : ShardParam)
    (contribs : List (List Int))
    (hs : s.is_shared = true) (hv : prodShape s.origin_shape = s.origin_numel) :
    (∃ m, s.gather contribs = .error m)
      ↔ ¬ (contribs.length = s.world_size
            ∧ (∀ c ∈ contribs, c.length = s.payload.length)
            ∧ s.origin_numel ≤ s.payload.length * s.world_size) := by
  unfold ShardParam.gather
  rw [if_neg (by simp [hs])]
  by_cases hc : contribs.length = s.world_size
      ∧ ∀ c ∈ contribs, c.length = s.payload.length
  · rw [if_pos hc]
    have hflen : contribs.flatten.length = s.payload.length * s.world_size := by
      rw [flatten_length_uniform contribs s.payload.length hc.2, hc.1]
      ring
    by_cases hnarrow : s.origin_numel ≤ contribs.flatten.length
    · rw [if_pos hnarrow, if_pos hv]
      constructor
      · rintro ⟨m, hm⟩
        exact absurd hm (by simp)
      · intro hcon
        exact absurd ⟨hc.1, hc.2, by rw [← hflen]; exact hnarrow⟩ hcon
    · rw [if_neg hnarrow]
      constructor
      · intro _ hcon
        exact hnarrow (by rw [hflen]; exact hcon.2.2)
      · intro _
        exact ⟨errNarrow, rfl⟩
  · rw [if_neg hc]
    constructor
    · intro _ hcon
      exact hc ⟨hcon.1, hcon.2.1⟩
    · intro _
      exact ⟨errAllGather, rfl⟩

/-- Claim C8, witness for the amended theorem: the characterization applied
at the counterexample input (non-uniform contributions of lengths
`3, 2, 4`). -/
theorem c8_gather_failure_characterization_witness :
    (∃ m, ShardParam.gather (ShardParam.mk [1, 2, 3] [7] 7 3 0 true)
        [[1, 2, 3], [4, 5], [6, 7, 8, 9]] = .error m)
      ↔ ¬ (([[1, 2, 3], [4, 5], [6, 7, 8, 9]] : List (List Int)).length
              = (ShardParam.mk [1, 2, 3] [7] 7 3 0 true).world_size
            ∧ (∀ c ∈ ([[1, 2, 3], [4, 5], [6, 7, 8, 9]] : List (List Int)),
                c.length = (ShardParam.mk [1, 2, 3] [7] 7 3 0 true).payload.length)
            ∧ (ShardParam.mk [1, 2, 3] [7] 7 3 0 true).origin_numel
                ≤ (ShardParam.mk [1, 2, 3] [7] 7 3 0 true).payload.length
                  * (ShardParam.mk [1, 2, 3] [7] 7 3 0 true).world_size) :=
  c8_gather_failure_characterization (ShardParam.mk [1, 2, 3] [7] 7 3 0 true)
    [[1, 2, 3], [4, 5], [6, 7, 8, 9]] rfl rfl

/-- Claim C7: constructing while torch.distributed is not initialized
yields the degenerate uninitialized instance (`is_init = False`, no other
attribute set, no group-creation call), and every accessor on that
instance fails (the attribute it reads was never set). -/
theorem c7_uninitialized_accessors (dr dws : Nat) (rank : Option Nat)
    (ranks : Option (List Nat)) (tp dp : Option Nat) :
    ProcessGroup.construct false dr dws rank ranks tp dp = .ok (.uninit, [])
    ∧ ProcessGroupObj.uninit.rank = none
    ∧ ProcessGroupObj.uninit.ranks_in_group = none
    ∧ ProcessGroupObj.uninit.world_size = none
    ∧ ProcessGroupObj.uninit.tp_rank_list = none
    ∧ ProcessGroupObj.uninit.dp_rank_list = none
    ∧ ProcessGroupObj.uninit.tp_local_rank = none
    ∧ ProcessGroupObj.uninit.dp_local_rank = none
    ∧ ProcessGroupObj.uninit.tp_world_size = none
    ∧ ProcessGroupObj.uninit.dp_world_size = none
    ∧ ProcessGroupObj.uninit.tp_process_group = none
    ∧ ProcessGroupObj.uninit.dp_process_group = none :=
  ⟨rfl, rfl, rfl, rfl, rfl, rfl, rfl, rfl, rfl, rfl, rfl, rfl⟩

/-- Claim C3: for two constructions with the same world ranks and degrees
but different self ranks (and different runtime-reported ranks) — two ranks
of the same job — the sequence of group-creation calls issued during
construction is identical, and it is the `dp_degree` row groups in
row-index order followed by the `tp_degree` column groups in column-index
order, each row/column membership computed from the rank list and degrees
only (`initGroupCalls` mentions no self rank). -/
theorem c3_call_sequence_rank_independent (dr1 dr2 dws : Nat)
    (rk1 rk2 : Option Nat) (ranks : Option (List Nat)) (tpd dpd : Option Nat)
    (dpD tpD : Nat)
    (hres : resolveDegrees (resolveRankList dws ranks).length tpd dpd
      = .ok (dpD, tpD)) :
    constructCalls true dr1 dws rk1 ranks tpd dpd
        = constructCalls true dr2 dws rk2 ranks tpd dpd
    ∧ constructCalls true dr1 dws rk1 ranks tpd dpd
        = .ok (initGroupCalls (resolveRankList dws ranks) dpD tpD) := by
  constructor
  · simp [constructCalls, ProcessGroup.construct, Except.map, hres]
  · simp [constructCalls, ProcessGroup.construct, Except.map, hres]

/-- Claim C3, witness: ranks 0 and 3 of a 4-rank world with a 2 x 2 grid
issue the identical call sequence. -/
theorem c3_call_sequence_rank_independent_witness :
    constructCalls true 0 4 (some 0) none (some 2) (some 2)
        = constructCalls true 3 4 (some 3) none (some 2) (some 2)
    ∧ constructCalls true 0 4 (some 0) none (some 2) (some 2)
        = .ok (initGroupCalls (resolveRankList 4 none) 2 2) :=
  c3_call_sequence_rank_independent 0 3 4 (some 0) (some 3) none
    (some 2) (some 2) 2 2 rfl

/-- Claim C9: on a fully constructed topology whose CPU-groups flag is not
yet set, `set_cpu_groups` issues the gloo group-creation calls for every
row and every column and sets the flag; a second call is a no-op — no
group-creation call, cache unchanged — so calling twice has the same
observable effect as calling once and the CPU group accessors return the
same handles afterwards. -/
theorem c9_set_cpu_groups_idempotent (s : ProcessGroupData)
    (d : PyTorchProcessGroupDict) (h : s.has_cpu_groups = false) :
    (s.set_cpu_groups).2 = cpuGroupCalls s
    ∧ (s.set_cpu_groups).1.has_cpu_groups = true
    ∧ (s.set_cpu_groups).1.set_cpu_groups = ((s.set_cpu_groups).1, ([] : List GroupCall))
    ∧ applyCalls (applyCalls d (s.set_cpu_groups).2)
          ((s.set_cpu_groups).1.set_cpu_groups).2
        = applyCalls d (s.set_cpu_groups).2
    ∧ ((s.set_cpu_groups).1.set_cpu_groups).1.cpu_dp_process_group
          (applyCalls (applyCalls d (s.set_cpu_groups).2)
            ((s.set_cpu_groups).1.set_cpu_groups).2)
        = (s.set_cpu_groups).1.cpu_dp_process_group
            (applyCalls d (s.set_cpu_groups).2)
    ∧ ((s.set_cpu_groups).1.set_cpu_groups).1.cpu_tp_process_group
          (applyCalls (applyCalls d (s.set_cpu_groups).2)
            ((s.set_cpu_groups).1.set_cpu_groups).2)
        = (s.set_cpu_groups).1.cpu_tp_process_group
            (applyCalls d (s.set_cpu_groups).2) := by
  simp [ProcessGroupData.set_cpu_groups, h, applyCalls]

/-- A sample fully constructed topology state (rank 1 of a 2 x 2 grid),
used to instantiate hypotheses of topology theorems. -/
def sampleTopology : ProcessGroupData :=
  { rank := 1, rank_list := [0, 1, 2, 3], world_size := 4, tp_degree := 2,
    dp_degree := 2, tp_rank_list := some [0, 1], dp_rank_list := some [1, 3],
    has_cpu_groups := false }

/-- Claim C9, witness: the idempotence properties at the sample topology
with the fresh cache. -/
theorem c9_set_cpu_groups_idempotent_witness :
    (sampleTopology.set_cpu_groups).2 = cpuGroupCalls sampleTopology
    ∧ (sampleTopology.set_cpu_groups).1.has_cpu_groups = true
    ∧ (sampleTopology.set_cpu_groups).1.set_cpu_groups
        = ((sampleTopology.set_cpu_groups).1, ([] : List GroupCall))
    ∧ applyCalls (applyCalls emptyPGDict (sampleTopology.set_cpu_groups).2)
          ((sampleTopology.set_cpu_groups).1.set_cpu_groups).2
        = applyCalls emptyPGDict (sampleTopology.set_cpu_groups).2
    ∧ ((sampleTopology.set_cpu_groups).1.set_cpu_groups).1.cpu_dp_process_group
          (applyCalls (applyCalls emptyPGDict (sampleTopology.set_cpu_groups).2)
            ((sampleTopology.set_cpu_groups).1.set_cpu_groups).2)
        = (sampleTopology.set_cpu_groups).1.cpu_dp_process_group
            (applyCalls emptyPGDict (sampleTopology.set_cpu_groups).2)
    ∧ ((sampleTopology.set_cpu_groups).1.set_cpu_groups).1.cpu_tp_process_group
          (applyCalls (applyCalls emptyPGDict (sampleTopology.set_cpu_groups).2)
            ((sampleTopology.set_cpu_groups).1.set_cpu_groups).2)
        = (sampleTopology.set_cpu_groups).1.cpu_tp_process_group
            (applyCalls emptyPGDict (sampleTopology.set_cpu_groups).2) :=
  c9_set_cpu_groups_idempotent sampleTopology emptyPGDict rfl

/-- Claim C5: for a successfully constructed topology with both positive
degrees given, `tp_degree * dp_degree = world_size`, and a sorted
duplicate-free rank list containing the self rank: the grid is row-major
over the rank list (row `i` is the slice of positions
`[i * tp_degree, i * tp_degree + tp_degree)`), every rank belongs to
exactly one row and exactly one column, the rows concatenate back to the
whole rank list and the columns cover exactly the rank list, and the
instance records as `tp_rank_list` / `dp_rank_list` exactly the row and the
column containing the self rank. -/
theorem c5_grid_partition (dr dws rk tpD dpD : Nat) (rs rl : List Nat)
    (hrl : sortNat rs = rl)
    (htp : 0 < tpD) (hdp : 0 < dpD)
    (hprod : tpD * dpD = rl.length)
    (hnd : rl.Nodup) (hmem : rk ∈ rl) :
    ∃ s, constructState true dr dws (some rk) (some rs) (some tpD) (some dpD) = .ok s
      ∧ s.rank_list = rl ∧ s.tp_degree = tpD ∧ s.dp_degree = dpD
      ∧ (∀ i, i < dpD → rowList rl tpD i = (rl.drop (i * tpD)).take tpD)
      ∧ (∀ x ∈ rl, ∃! i, i < dpD ∧ x ∈ rowList rl tpD i)
      ∧ (∀ x ∈ rl, ∃! j, j < tpD ∧ x ∈ colList rl tpD dpD j)
      ∧ ((List.range dpD).map (rowList rl tpD)).flatten = rl
      ∧ (∀ x, (∃ j, j < tpD ∧ x ∈ colList rl tpD dpD j) ↔ x ∈ rl)
      ∧ (∃ i, i < dpD ∧ rk ∈ rowList rl tpD i
          ∧ s.tp_rank_list = some (rowList rl tpD i))
      ∧ (∃ j, j < tpD ∧ rk ∈ colList rl tpD dpD j
          ∧ s.dp_rank_list = some (colList rl tpD dpD j)) := by
  have htp0 : tpD ≠ 0 := by omega
  have hdp0 : dpD ≠ 0 := by omega
  have hprod' : dpD * tpD = rl.length := by
    rw [Nat.mul_comm dpD tpD]
    exact hprod
  have hres : resolveDegrees rl.length (some tpD) (some dpD) = .ok (dpD, tpD) := by
    simp [resolveDegrees, truthy, htp0, hdp0, hprod']
  have hconstruct : constructState true dr dws (some rk) (some rs) (some tpD) (some dpD)
      = .ok { rank := rk, rank_list := rl, world_size := rl.length,
              tp_degree := tpD, dp_degree := dpD,
              tp_rank_list := selectContaining rk ((List.range dpD).map (rowList rl tpD)),
              dp_rank_list := selectContaining rk
                ((List.range tpD).map (colList rl tpD dpD)),
              has_cpu_groups := false } := by
    simp [constructState, ProcessGroup.construct, resolveRankList, hrl, hres]
  obtain ⟨p, hp, hpv⟩ := List.mem_iff_getElem.mp hmem
  have hpdiv : p / tpD < dpD := by
    rw [Nat.div_lt_iff_lt_mul htp, Nat.mul_comm dpD tpD, hprod]
    exact hp
  have hpmod : p % tpD < tpD := Nat.mod_lt p htp
  have hurow : ∀ i, i < dpD → (rk ∈ rowList rl tpD i ↔ i = p / tpD) := by
    intro i hi
    rw [← hpv]
    exact mem_row_iff_div rl tpD dpD hnd htp hprod p hp i hi
  have hucol : ∀ j, j < tpD → (rk ∈ colList rl tpD dpD j ↔ j = p % tpD) := by
    intro j hj
    rw [← hpv]
    exact mem_col_iff_mod rl tpD dpD hnd htp hprod p hp j hj
  refine ⟨_, hconstruct, rfl, rfl, rfl, ?_, ?_, ?_, ?_, ?_, ?_, ?_⟩
  · intro i hi
    exact rowList_eq_slice rl tpD dpD i hprod hi
  · intro x hx
    obtain ⟨q, hq, hqv⟩ := List.mem_iff_getElem.mp hx
    have hqdiv : q / tpD < dpD := by
      rw [Nat.div_lt_iff_lt_mul htp, Nat.mul_comm dpD tpD, hprod]
      exact hq
    refine ⟨q / tpD, ⟨hqdiv, ?_⟩, ?_⟩
    · rw [← hqv]
      exact (mem_row_iff_div rl tpD dpD hnd htp hprod q hq (q / tpD) hqdiv).mpr rfl
    · rintro y ⟨hy, hymem⟩
      rw [← hqv] at hymem
      exact (mem_row_iff_div rl tpD dpD hnd htp hprod q hq y hy).mp hymem
  · intro x hx
    obtain ⟨q, hq, hqv⟩ := List.mem_iff_getElem.mp hx
    have hqmod : q % tpD < tpD := Nat.mod_lt q htp
    refine ⟨q % tpD, ⟨hqmod, ?_⟩, ?_⟩
    · rw [← hqv]
      exact (mem_col_iff_mod rl tpD dpD hnd htp hprod q hq (q % tpD) hqmod).mpr rfl
    · rintro y ⟨hy, hymem⟩
      rw [← hqv] at hymem
      exact (mem_col_iff_mod rl tpD dpD hnd htp hprod q hq y hy).mp hymem
  · have hcongr : (List.range dpD).map (rowList rl tpD)
        = (List.range dpD).map (fun i => (rl.drop (i * tpD)).take tpD) :=
      List.map_congr_left
        (fun i hi => rowList_eq_slice rl tpD dpD i hprod (List.mem_range.mp hi))
    rw [hcongr]
    apply flatten_slices
    rw [← hprod]
    ring
  · intro x
    constructor
    · rintro ⟨j, hj, hxmem⟩
      obtain ⟨i, hi, hval⟩ := (mem_colList_iff rl tpD dpD j x).mp hxmem
      rw [← hval]
      exact getD_mem rl _ (grid_index_lt tpD dpD rl.length i j hprod hi hj)
    · intro hx
      obtain ⟨q, hq, hqv⟩ := List.mem_iff_getElem.mp hx
      refine ⟨q % tpD, Nat.mod_lt q htp, ?_⟩
      rw [← hqv]
      exact (mem_col_iff_mod rl tpD dpD hnd htp hprod q hq (q % tpD)
        (Nat.mod_lt q htp)).mpr rfl
  · refine ⟨p / tpD, hpdiv, (hurow _ hpdiv).mpr rfl, ?_⟩
    show selectContaining rk ((List.range dpD).map (rowList rl tpD))
        = some (rowList rl tpD (p / tpD))
    exact selectContaining_last rk (rowList rl tpD) dpD (p / tpD) hpdiv hurow
  · refine ⟨p % tpD, hpmod, (hucol _ hpmod).mpr rfl, ?_⟩
    show selectContaining rk ((List.range tpD).map (colList rl tpD dpD))
        = some (colList rl tpD dpD (p % tpD))
    exact selectContaining_last rk (colList rl tpD dpD) tpD (p % tpD) hpmod hucol

/-- Claim C5, witness: the scenario given in the spec, `world_ranks = [0,1,2,3]`,
`tp_degree = dp_degree = 2`, self rank 1 (whose row is `[0,1]` and column
`[1,3]`). -/
theorem c5_grid_partition_witness :
    ∃ s, constructState true 0 4 (some 1) (some [0, 1, 2, 3]) (some 2) (some 2) = .ok s
      ∧ s.rank_list = [0, 1, 2, 3] ∧ s.tp_degree = 2 ∧ s.dp_degree = 2
      ∧ (∀ i, i < 2 → rowList [0, 1, 2, 3] 2 i = (([0, 1, 2, 3] : List Nat).drop (i * 2)).take 2)
      ∧ (∀ x ∈ ([0, 1, 2, 3] : List Nat), ∃! i, i < 2 ∧ x ∈ rowList [0, 1, 2, 3] 2 i)
      ∧ (∀ x ∈ ([0, 1, 2, 3] : List Nat), ∃! j, j < 2 ∧ x ∈ colList [0, 1, 2, 3] 2 2 j)
      ∧ ((List.range 2).map (rowList [0, 1, 2, 3] 2)).flatten = [0, 1, 2, 3]
      ∧ (∀ x, (∃ j, j < 2 ∧ x ∈ colList [0, 1, 2, 3] 2 2 j) ↔ x ∈ ([0, 1, 2, 3] : List Nat))
      ∧ (∃ i, i < 2 ∧ 1 ∈ rowList [0, 1, 2, 3] 2 i
          ∧ s.tp_rank_list = some (rowList [0, 1, 2, 3] 2 i))
      ∧ (∃ j, j < 2 ∧ 1 ∈ colList [0, 1, 2, 3] 2 2 j
          ∧ s.dp_rank_list = some (colList [0, 1, 2, 3] 2 2 j)) :=
  c5_grid_partition 0 4 1 2 2 [0, 1, 2, 3] [0, 1, 2, 3] rfl
    (by decide) (by decide) rfl (by decide) (by decide)

/-- Claim C10: with the runtime active and valid degrees, passing a rank
that is not a member of the (sorted) rank list still constructs
successfully, but the row and column rank-list attributes stay Python
`None`, so the row/column size accessors (`len(None)`) and the row/column
group accessors (`tuple(None)` inside the cache) fail rather than
returning a group. -/
theorem c10_rank_outside_world_ranks (dr dws rk tpD dpD : Nat) (rs rl : List Nat)
    (hrl : sortNat rs = rl)
    (htp : 0 < tpD) (hdp : 0 < dpD)
    (hprod : tpD * dpD = rl.length)
    (hnotmem : rk ∉ rl) :
    ∃ s, constructState true dr dws (some rk) (some rs) (some tpD) (some dpD) = .ok s
      ∧ s.tp_rank_list = none ∧ s.dp_rank_list = none
      ∧ (ProcessGroupObj.obj s).tp_world_size = none
      ∧ (ProcessGroupObj.obj s).dp_world_size = none
      ∧ (ProcessGroupObj.obj s).tp_process_group = none
      ∧ (ProcessGroupObj.obj s).dp_process_group = none := by
  have htp0 : tpD ≠ 0 := by omega
  have hdp0 : dpD ≠ 0 := by omega
  have hprod' : dpD * tpD = rl.length := by
    rw [Nat.mul_comm dpD tpD]
    exact hprod
  have hres : resolveDegrees rl.length (some tpD) (some dpD) = .ok (dpD, tpD) := by
    simp [resolveDegrees, truthy, htp0, hdp0, hprod']
  have hconstruct : constructState true dr dws (some rk) (some rs) (some tpD) (some dpD)
      = .ok { rank := rk, rank_list := rl, world_size := rl.length,
              tp_degree := tpD, dp_degree := dpD,
              tp_rank_list := selectContaining rk ((List.range dpD).map (rowList rl tpD)),
              dp_rank_list := selectContaining rk
                ((List.range tpD).map (colList rl tpD dpD)),
              has_cpu_groups := false } := by
    simp [constructState, ProcessGroup.construct, resolveRankList, hrl, hres]
  have hrowsel : selectContaining rk ((List.range dpD).map (rowList rl tpD)) = none := by
    apply selectContaining_none
    intro l hl
    obtain ⟨i, hi, rfl⟩ := List.mem_map.mp hl
    intro hmem
    obtain ⟨j, hj, hval⟩ := (mem_rowList_iff rl tpD i rk).mp hmem
    apply hnotmem
    rw [← hval]
    exact getD_mem rl _
      (grid_index_lt tpD dpD rl.length i j hprod (List.mem_range.mp hi) hj)
  have hcolsel : selectContaining rk ((List.range tpD).map (colList rl tpD dpD)) = none := by
    apply selectContaining_none
    intro l hl
    obtain ⟨j, hj, rfl⟩ := List.mem_map.mp hl
    intro hmem
    obtain ⟨i, hi, hval⟩ := (mem_colList_iff rl tpD dpD j rk).mp hmem
    apply hnotmem
    rw [← hval]
    exact getD_mem rl _
      (grid_index_lt tpD dpD rl.length i j hprod hi (List.mem_range.mp hj))
  refine ⟨_, hconstruct, hrowsel, hcolsel, ?_, ?_, ?_, ?_⟩
  · show (selectContaining rk ((List.range dpD).map (rowList rl tpD))).map List.length
        = none
    rw [hrowsel]
    rfl
  · show (selectContaining rk ((List.range tpD).map (colList rl tpD dpD))).map List.length
        = none
    rw [hcolsel]
    rfl
  · show (selectContaining rk ((List.range dpD).map (rowList rl tpD))).map
        (fun l => (l, ncclBackend)) = none
    rw [hrowsel]
    rfl
  · show (selectContaining rk ((List.range tpD).map (colList rl tpD dpD))).map
        (fun l => (l, ncclBackend)) = none
    rw [hcolsel]
    rfl

/-- Claim C10, witness: rank 9 is not in `[0, 1, 2, 3]`; the 2 x 2
construction still succeeds and the size and group accessors fail. -/
theorem c10_rank_outside_world_ranks_witness :
    ∃ s, constructState true 0 4 (some 9) (some [0, 1, 2, 3]) (some 2) (some 2) = .ok s
      ∧ s.tp_rank_list = none ∧ s.dp_rank_list = none
      ∧ (ProcessGroupObj.obj s).tp_world_size = none
      ∧ (ProcessGroupObj.obj s).dp_world_size = none
      ∧ (ProcessGroupObj.obj s).tp_process_group = none
      ∧ (ProcessGroupObj.obj s).dp_process_group = none :=
  c10_rank_outside_world_ranks 0 4 9 2 2 [0, 1, 2, 3] [0, 1, 2, 3] rfl
    (by decide) (by decide) rfl (by decide)

end ColossalAI
